import Mathlib

/-!
Shallow embedding of the GainChef session agent.

The definitions below translate the persistent data model and the storage
operations of the GainChef worker (src/types.ts, src/server.ts, src/tools.ts)
into pure Lean functions.  Durable-object storage is modelled by the `Store`
structure, one field per storage key; every agent method that reads or writes
storage becomes a function over `Store`.  JavaScript numbers carrying macro
quantities and epoch-millisecond timestamps are modelled as `Int`.
-/

namespace GainChef

/-- Macro quantities record (types.ts `MacroTargets`). -/
structure MacroTargets where
  protein : Int
  carbs : Int
  fat : Int
  calories : Int
deriving DecidableEq, Repr

/-- The meal-type enumeration of types.ts (`"breakfast" | "lunch" | "dinner" |
"snack" | "post-workout"`). -/
inductive MealType where
  | breakfast
  | lunch
  | dinner
  | snack
  | postWorkout
deriving DecidableEq, Repr

/-- One logged meal (types.ts `MealLog`). -/
structure MealLog where
  id : String
  timestamp : Int
  food : String
  mealType : Option MealType := none
  protein : Int
  carbs : Int
  fat : Int
  calories : Int
  notes : Option String := none
deriving DecidableEq, Repr

/-- One day's meal list and running totals (types.ts `DailyMacros`). -/
structure DailyMacros where
  date : String
  totals : MacroTargets
  meals : List MealLog
deriving DecidableEq, Repr

/-- types.ts `MealPlan["timeframe"]`. -/
inductive Timeframe where
  | daily
  | weekly
deriving DecidableEq, Repr

/-- types.ts `MealPlanEntry`. -/
structure MealPlanEntry where
  mealType : MealType
  name : String
  description : String
  macros : MacroTargets
  ingredients : List String
  preparationSteps : List String
deriving DecidableEq, Repr

/-- types.ts `MealPlanDay`. -/
structure MealPlanDay where
  date : String
  goalSummary : String
  meals : List MealPlanEntry
deriving DecidableEq, Repr

/-- types.ts `MealPlan`. -/
structure MealPlan where
  id : String
  createdAt : Int
  timeframe : Timeframe
  days : List MealPlanDay
  shoppingListId : Option String := none
deriving DecidableEq, Repr

/-- types.ts `ShoppingListItem`. -/
structure ShoppingListItem where
  name : String
  quantity : String
  mealReferences : List String
deriving DecidableEq, Repr

/-- types.ts `ShoppingList`. -/
structure ShoppingList where
  id : String
  createdAt : Int
  timeframe : Timeframe
  items : List ShoppingListItem
deriving DecidableEq, Repr

/-- types.ts `GoalType`. -/
inductive GoalType where
  | bulking
  | cutting
  | recomposition
  | maintaining
deriving DecidableEq, Repr

/-- types.ts `UserProfile["sex"]`. -/
inductive Sex where
  | male
  | female
  | nonBinary
deriving DecidableEq, Repr

/-- types.ts `UserProfile["activityLevel"]`. -/
inductive ActivityLevel where
  | sedentary
  | light
  | moderate
  | intense
deriving DecidableEq, Repr

/-- types.ts `UserProfile`.  Every field is optional in the source; an absent
JavaScript object key is `none`. -/
structure UserProfile where
  id : Option String := none
  name : Option String := none
  goalType : Option GoalType := none
  weight : Option Int := none
  targetWeight : Option Int := none
  heightInches : Option Int := none
  age : Option Int := none
  sex : Option Sex := none
  activityLevel : Option ActivityLevel := none
  macroTargets : Option MacroTargets := none
  restrictions : Option (List String) := none
  preferences : Option (List String) := none
  timezone : Option String := none
  updatedAt : Option Int := none
deriving DecidableEq, Repr

/-- The record kept under the `"rate-limit"` storage key by
server.ts `bumpRateLimit` (`{ count, reset }`). -/
structure RateLimitRecord where
  count : Nat
  reset : Int
deriving DecidableEq, Repr

/-- server.ts `MAX_STORED_MEAL_HISTORY`. -/
def MAX_STORED_MEAL_HISTORY : Nat := 30

/-- server.ts `MAX_MEAL_PLAN_HISTORY`. -/
def MAX_MEAL_PLAN_HISTORY : Nat := 5

/-- server.ts `RATE_LIMIT_WINDOW_MS = 10 * 60 * 1000`. -/
def RATE_LIMIT_WINDOW_MS : Int := 10 * 60 * 1000

/-- server.ts `RATE_LIMIT_MAX_REQUESTS`. -/
def RATE_LIMIT_MAX_REQUESTS : Nat := 20

/-- server.ts `EMPTY_TOTALS`. -/
def EMPTY_TOTALS : MacroTargets := { protein := 0, carbs := 0, fat := 0, calories := 0 }

/-- server.ts `computeTotals`: a reduce over the meal list that sums the four
macro fields starting from `EMPTY_TOTALS`. -/
def computeTotals (meals : List MealLog) : MacroTargets :=
  meals.foldl
    (fun totals meal =>
      { protein := totals.protein + meal.protein
        carbs := totals.carbs + meal.carbs
        fat := totals.fat + meal.fat
        calories := totals.calories + meal.calories })
    EMPTY_TOTALS

/-- Field-wise sum of a list of meal logs, phrased the way the spec states the
totals invariant (one independent sum per macro field). -/
def macroSum (meals : List MealLog) : MacroTargets :=
  { protein := (meals.map MealLog.protein).sum
    carbs := (meals.map MealLog.carbs).sum
    fat := (meals.map MealLog.fat).sum
    calories := (meals.map MealLog.calories).sum }

/-- Milliseconds per UTC day. -/
def MS_PER_DAY : Int := 86400000

/-- Convert a count of days since 1970-01-01 into the Gregorian
(year, month, day) triple of that UTC day.  This is the standard
civil-from-days computation that backs `Date.prototype.toISOString`. -/
def civilFromDays (z0 : Int) : Int × Nat × Nat :=
  let z := z0 + 719468
  let era := z.fdiv 146097
  let doe := (z - era * 146097).toNat
  let yoe := (doe - doe / 1460 + doe / 36524 - doe / 146096) / 365
  let doy := doe - (365 * yoe + yoe / 4 - yoe / 100)
  let mp := (5 * doy + 2) / 153
  let d := doy - (153 * mp + 2) / 5 + 1
  let m := if mp < 10 then mp + 3 else mp - 9
  let y := (yoe : Int) + era * 400
  (if m ≤ 2 then y + 1 else y, m, d)

/-- Zero-pad a month or day number to two digits. -/
def pad2 (n : Nat) : String := if n < 10 then "0" ++ toString n else toString n

/-- Zero-pad a year number to four digits. -/
def pad4 (n : Nat) : String :=
  if n < 10 then "000" ++ toString n
  else if n < 100 then "00" ++ toString n
  else if n < 1000 then "0" ++ toString n
  else toString n

/-- server.ts `toDateString`: `new Date(ts).toISOString().slice(0, 10)`, i.e. the
UTC calendar date of the timestamp rendered as `yyyy-mm-dd`.  Modelled for
timestamps whose UTC year is nonnegative (every date this program handles). -/
def toDateString (timestampMs : Int) : String :=
  let days := timestampMs.fdiv MS_PER_DAY
  let ymd := civilFromDays days
  pad4 ymd.1.toNat ++ "-" ++ pad2 ymd.2.1 ++ "-" ++ pad2 ymd.2.2

/-- Modelled from the spec: the spec keys DailyMacros "by calendar date (derived
from a meal's timestamp in the session's locale)".  A session locale is
modelled by its fixed UTC offset in milliseconds; the local calendar date of a
timestamp is the UTC calendar date of the offset-shifted timestamp. -/
def localeDateString (tzOffsetMs timestampMs : Int) : String :=
  toDateString (timestampMs + tzOffsetMs)

/-- Durable-object storage of one GainChefAgent session, one field per storage
key (`STORAGE_KEYS` in server.ts plus the `"rate-limit"` key).  `daily date`
is the value under `"daily-macros:" ++ date`; `shoppingLists` is the map object
stored under `"shopping-lists"` (an absent map and an empty map read the same
way, via the `?? \x7b\x7d` default in the source). -/
structure Store where
  profile : Option UserProfile
  daily : String → Option DailyMacros
  mealDates : Option (List String)
  activePlan : Option MealPlan
  planHistory : Option (List MealPlan)
  shoppingLists : String → Option ShoppingList
  rateLimit : Option RateLimitRecord

/-- A fresh session: no key has ever been written. -/
def emptyStore : Store where
  profile := none
  daily := fun _ => none
  mealDates := none
  activePlan := none
  planHistory := none
  shoppingLists := fun _ => none
  rateLimit := none

/-- Descending string comparator used by `sort((a, b) => b.localeCompare(a))` on
the stored date keys: for the ASCII `yyyy-mm-dd` keys of this program
`localeCompare` is code-unit lexicographic comparison, so the comparator puts
`a` before `b` exactly when `b ≤ a` in that order. -/
def dateGe (a b : String) : Prop := b.data ≤ a.data

instance : DecidableRel dateGe := fun a b => inferInstanceAs (Decidable (b.data ≤ a.data))

/-- Sort a list of date strings most-recent (largest) first. -/
def sortDatesDesc (dates : List String) : List String := dates.insertionSort dateGe

/-- Ascending stable sort by `(a, b) => a.timestamp - b.timestamp` used in
server.ts `logMeal`. -/
def tsLe (a b : MealLog) : Prop := a.timestamp ≤ b.timestamp

instance : DecidableRel tsLe := fun a b => inferInstanceAs (Decidable (a.timestamp ≤ b.timestamp))

/-- Sort meals by ascending timestamp. -/
def sortMealsByTime (meals : List MealLog) : List MealLog := meals.insertionSort tsLe

/-- server.ts `readDaily`. -/
def readDaily (date : String) (s : Store) : Option DailyMacros := s.daily date

/-- server.ts `writeDaily`. -/
def writeDaily (day : DailyMacros) (s : Store) : Store :=
  { s with daily := fun key => if key = day.date then some day else s.daily key }

/-- server.ts `updateMealDates` as a pure function on the stored dates list:
push the date if it is not already present, sort descending, keep the first
`MAX_STORED_MEAL_HISTORY` entries. -/
def updateMealDatesList (dates : List String) (date : String) : List String :=
  let pushed := if date ∈ dates then dates else dates ++ [date]
  (sortDatesDesc pushed).take MAX_STORED_MEAL_HISTORY

/-- server.ts `updateMealDates` acting on the store. -/
def updateMealDates (date : String) (s : Store) : Store :=
  { s with mealDates := some (updateMealDatesList (s.mealDates.getD []) date) }

/-- The meal list already stored under a date: `existing ? [...existing.meals] : []`
in server.ts `logMeal`. -/
def currentMeals (s : Store) (date : String) : List MealLog :=
  ((readDaily date s).map DailyMacros.meals).getD []

/-- server.ts `GainChefAgent.logMeal`: key the meal by the UTC calendar date of
its timestamp, append it to that day's meals, re-sort by time, recompute the
totals from scratch, write the day back and update the dates index.  The
`meal.id ?? crypto.randomUUID()` normalization only fills a fresh opaque id and
is irrelevant to every property below, so the meal is stored as given. -/
def logMeal (meal : MealLog) (s : Store) : DailyMacros × Store :=
  let date := toDateString meal.timestamp
  let meals := sortMealsByTime (currentMeals s date ++ [meal])
  let updated : DailyMacros := { date := date, totals := computeTotals meals, meals := meals }
  (updated, updateMealDates date (writeDaily updated s))

/-- A sequence of `logMeal` calls, keeping only the store. -/
def logAll (meals : List MealLog) (s : Store) : Store :=
  meals.foldl (fun acc m => (logMeal m acc).2) s

/-- server.ts `GainChefAgent.getDailyMacros`: read the day or synthesize an
empty one; performs no write. -/
def getDailyMacros (date : String) (s : Store) : DailyMacros :=
  match readDaily date s with
  | some existing => existing
  | none => { date := date, totals := EMPTY_TOTALS, meals := [] }

/-- server.ts `GainChefAgent.getMealHistory`: read the dates index, sort it
descending, take `limit` dates and read each day, dropping absent ones
(`filter(Boolean)`); performs no write. -/
def getMealHistory (limit : Nat) (s : Store) : List DailyMacros :=
  let storedDates := s.mealDates.getD []
  if storedDates.isEmpty then []
  else ((sortDatesDesc storedDates).take limit).filterMap (fun date => readDaily date s)

/-- tools.ts `getProgress.execute`: reads the profile, today's macros (keyed by
the current time) and `days` days of history, and returns them together with
the resulting store.  `formatProgress` then renders this triple into a string
purely, with no further storage access, so the store is returned unchanged by
construction exactly as in the source, which contains no `put` on this path. -/
def getProgress (days : Nat) (now : Int) (s : Store) :
    (Option UserProfile × DailyMacros × List DailyMacros) × Store :=
  ((s.profile, getDailyMacros (toDateString now) s, getMealHistory days s), s)

/-- server.ts `GainChefAgent.saveMealPlan`: store the active plan, then prepend
it to the history with any same-id entry filtered out, truncated to
`MAX_MEAL_PLAN_HISTORY`. -/
def saveMealPlan (plan : MealPlan) (s : Store) : Store :=
  let s1 : Store := { s with activePlan := some plan }
  let history := s1.planHistory.getD []
  let deduped :=
    (plan :: history.filter (fun item => item.id != plan.id)).take MAX_MEAL_PLAN_HISTORY
  { s1 with planHistory := some deduped }

/-- server.ts `GainChefAgent.saveShoppingList`: write the list into the stored
map under its id. -/
def saveShoppingListAgent (list : ShoppingList) (s : Store) : Store :=
  { s with shoppingLists := fun key => if key = list.id then some list else s.shoppingLists key }

/-- The zod `shoppingListSchema` output consumed by the saveShoppingList tool. -/
structure ShoppingListInput where
  id : Option String := none
  planId : Option String := none
  timeframe : Timeframe := Timeframe.daily
  items : List ShoppingListItem := []
deriving DecidableEq, Repr

/-- tools.ts `saveShoppingList.execute`: build the list (with `genId` standing
for the `crypto.randomUUID()` fallback and `now` for `Date.now()`), always store
it in the shopping-lists map; then, only when a `planId` was supplied and it
equals the id of the currently active plan, re-save that plan with
`shoppingListId` back-linked to the new list. -/
def saveShoppingListTool (input : ShoppingListInput) (genId : String) (now : Int)
    (s : Store) : Store :=
  let listId := input.id.getD genId
  let list : ShoppingList :=
    { id := listId, createdAt := now, timeframe := input.timeframe, items := input.items }
  let s1 := saveShoppingListAgent list s
  match input.planId with
  | none => s1
  | some planId =>
    match s1.activePlan with
    | some latestPlan =>
      if latestPlan.id = planId then
        saveMealPlan { latestPlan with shoppingListId := some listId } s1
      else s1
    | none => s1

/-- The partial `macroTargetsSchema` of tools.ts: every macro field optional. -/
structure PartialMacroTargets where
  protein : Option Int := none
  carbs : Option Int := none
  fat : Option Int := none
  calories : Option Int := none
deriving DecidableEq, Repr

/-- The zod `profileUpdateSchema` output consumed by the updateProfile tool:
an absent optional key is `none` (zod omits keys missing from the input). -/
structure ProfileUpdateInput where
  name : Option String := none
  goalType : Option GoalType := none
  weight : Option Int := none
  targetWeight : Option Int := none
  heightInches : Option Int := none
  age : Option Int := none
  sex : Option Sex := none
  activityLevel : Option ActivityLevel := none
  macroTargets : Option PartialMacroTargets := none
  restrictions : Option (List String) := none
  preferences : Option (List String) := none
  timezone : Option String := none
deriving DecidableEq, Repr

/-- tools.ts updateProfile: `input.macroTargets ? { protein: input.macroTargets.protein
?? 0, ... } : undefined` — a supplied partial target object is zero-filled. -/
def fillMacroTargets (m : PartialMacroTargets) : MacroTargets :=
  { protein := m.protein.getD 0
    carbs := m.carbs.getD 0
    fat := m.fat.getD 0
    calories := m.calories.getD 0 }

/-- tools.ts `updateProfile.execute` composed with server.ts `setProfile`
(`merged = { ...existing, ...profile, updatedAt: Date.now() }`).  A JavaScript
spread overrides a key whenever that key is an own property of the update
object, even when its value is `undefined`.  The ordinary optional keys are own
properties exactly when supplied (zod omits absent keys), so they merge with
`orElse`; the `macroTargets` key is *always* an own property of the object the
tool passes (`macroTargets: input.macroTargets ? {...} : undefined`), so it
always overrides the stored value — with `undefined` when not supplied, and
with the zero-filled object when partially supplied.  `updatedAt` is stamped
with the current time. -/
def updateProfileTool (input : ProfileUpdateInput) (now : Int) (s : Store) : Store :=
  let existing := s.profile.getD {}
  let merged : UserProfile :=
    { id := existing.id
      name := input.name.orElse fun _ => existing.name
      goalType := input.goalType.orElse fun _ => existing.goalType
      weight := input.weight.orElse fun _ => existing.weight
      targetWeight := input.targetWeight.orElse fun _ => existing.targetWeight
      heightInches := input.heightInches.orElse fun _ => existing.heightInches
      age := input.age.orElse fun _ => existing.age
      sex := input.sex.orElse fun _ => existing.sex
      activityLevel := input.activityLevel.orElse fun _ => existing.activityLevel
      macroTargets := input.macroTargets.map fillMacroTargets
      restrictions := input.restrictions.orElse fun _ => existing.restrictions
      preferences := input.preferences.orElse fun _ => existing.preferences
      timezone := input.timezone.orElse fun _ => existing.timezone
      updatedAt := some now }
  { s with profile := some merged }

/-- server.ts `bumpRateLimit`: read the record (defaulting to a fresh window),
reset it if the window has elapsed, refuse at the cap, otherwise count the
request. -/
def bumpRateLimit (now : Int) (s : Store) : Bool × Store :=
  let record := s.rateLimit.getD { count := 0, reset := now + RATE_LIMIT_WINDOW_MS }
  let record :=
    if record.reset < now then
      ({ count := 0, reset := now + RATE_LIMIT_WINDOW_MS } : RateLimitRecord)
    else record
  if RATE_LIMIT_MAX_REQUESTS ≤ record.count then
    (false, { s with rateLimit := some record })
  else
    (true, { s with rateLimit := some { record with count := record.count + 1 } })

/-- Run `bumpRateLimit` once per listed call time, collecting the admit
results in order. -/
def admitSeq (times : List Int) (s : Store) : List Bool × Store :=
  match times with
  | [] => ([], s)
  | t :: ts =>
    let r := bumpRateLimit t s
    let rest := admitSeq ts r.2
    (r.1 :: rest.1, rest.2)

/-- Is `pat` a leading prefix of `cs`?  (Char-list helper for `includes`.) -/
def leadsChars : List Char → List Char → Bool
  | [], _ => true
  | _ :: _, [] => false
  | p :: ps, c :: cs => p == c && leadsChars ps cs

/-- Does `haystack` contain `pat` as a contiguous substring? -/
def containsChars : List Char → List Char → Bool
  | [], pat => pat.isEmpty
  | c :: rest, pat => leadsChars pat (c :: rest) || containsChars rest pat

/-- JavaScript `String.prototype.includes` on the code-unit level. -/
def strIncludes (s pat : String) : Bool := containsChars s.data pat.data

/-- The `name`/`message` pair of a JavaScript `Error`.  A non-`Error` thrown
value reads back as empty name and message in `isRecoverableModelError`, which
is the record `⟨"", ""⟩` here. -/
structure JsError where
  name : String
  message : String
deriving DecidableEq, Repr

/-- server.ts `GainChefAgent.isRecoverableModelError`. -/
def isRecoverableModelError (e : JsError) : Bool :=
  strIncludes e.message "No such model" || strIncludes e.message "5007" ||
    e.name == "InferenceUpstreamError"

/-- The fixed user-visible message streamed on a terminal generation failure
in `onChatMessage`. -/
def snagMessage : String := "I hit a snag generating that answer. Please try again in a moment."

/-- Outcome of one `runModel` attempt: it either returns or throws. -/
inductive AttemptOutcome where
  | ok
  | throws (e : JsError)
deriving DecidableEq, Repr

/-- The try/catch around `runModel(modelInfo)` in server.ts `onChatMessage`:
on a throw, retry once against `modelInfo.fallback()` only when a fallback is
present and the error is recoverable; otherwise emit the fixed snag message.
The result counts fallback retries and carries the emitted error message, if
any (a throw out of the single fallback attempt escapes this handler and is
never retried again, so no message arises from it here). -/
def runGeneration (primary : AttemptOutcome) (fallback : Option AttemptOutcome) :
    Nat × Option String :=
  match primary with
  | AttemptOutcome.ok => (0, none)
  | AttemptOutcome.throws e =>
    if fallback.isSome && isRecoverableModelError e then (1, none)
    else (0, some snagMessage)

/-- A parsed JSON value, as produced by `request.json()`. -/
inductive JsValue where
  | jsNull
  | jsBool (b : Bool)
  | jsNum (n : Int)
  | jsStr (s : String)
  | jsArr (elems : List JsValue)
  | jsObj (fields : List (String × JsValue))

/-- JavaScript truthiness of a parsed JSON value (`!body` check). -/
def jsTruthy : JsValue → Bool
  | JsValue.jsNull => false
  | JsValue.jsBool b => b
  | JsValue.jsNum n => n != 0
  | JsValue.jsStr s => s != ""
  | JsValue.jsArr _ => true
  | JsValue.jsObj _ => true

/-- `typeof body === "object"` for a parsed JSON value (null and arrays are
objects to `typeof`). -/
def typeofObject : JsValue → Bool
  | JsValue.jsNull => true
  | JsValue.jsArr _ => true
  | JsValue.jsObj _ => true
  | _ => false

/-- `"type" in body` for the values that reach it (truthy objects): field
lookup on an object, always false on an array. -/
def hasTypeKey : JsValue → Bool
  | JsValue.jsObj fields => (fields.lookup "type").isSome
  | _ => false

/-- The three `type` tags of the types.ts `WorkflowPayload` tagged union. -/
def knownWorkflowTags : List String := ["weekly_meal_prep", "daily_macro_check", "monthly_report"]

/-- Outcome of the `/trigger-workflow` route: a client error response, or an
accepted response after the payload was forwarded to `env.MEAL_PREP.create`. -/
inductive TriggerResult where
  | clientError (status : Nat) (errorMessage : String)
  | accepted (status : Nat) (forwarded : JsValue) (workflowId : String)

/-- server.ts default fetch handler, `/trigger-workflow` branch: `none` models
`request.json()` throwing (caught, 400); a parsed body is rejected with 400
when `!body || typeof body !== "object" || !("type" in body)`, and otherwise
forwarded to the workflow binding, answering 202 with the new instance id. -/
def handleTriggerWorkflow (body : Option JsValue) (jobId : String) : TriggerResult :=
  match body with
  | none => TriggerResult.clientError 400 "Failed to trigger workflow"
  | some v =>
    if !jsTruthy v || !typeofObject v || !hasTypeKey v then
      TriggerResult.clientError 400 "Invalid workflow payload"
    else
      TriggerResult.accepted 202 v jobId

/-! Helper lemmas about totals. -/

/-- Unrolled form of the `computeTotals` reduce for an arbitrary accumulator. -/
theorem computeTotals_foldl (meals : List MealLog) : ∀ t : MacroTargets,
    meals.foldl
        (fun totals meal =>
          { protein := totals.protein + meal.protein
            carbs := totals.carbs + meal.carbs
            fat := totals.fat + meal.fat
            calories := totals.calories + meal.calories })
        t
      = { protein := t.protein + (meals.map MealLog.protein).sum
          carbs := t.carbs + (meals.map MealLog.carbs).sum
          fat := t.fat + (meals.map MealLog.fat).sum
          calories := t.calories + (meals.map MealLog.calories).sum } := by
  induction meals with
  | nil => intro t; cases t; simp
  | cons m rest ih =>
    intro t
    simp only [List.foldl_cons, List.map_cons, List.sum_cons]
    rw [ih]
    cases t
    simp [add_assoc]

/-- The reduce in server.ts `computeTotals` computes the field-wise sum. -/
theorem computeTotals_eq_macroSum (meals : List MealLog) : computeTotals meals = macroSum meals := by
  unfold computeTotals macroSum
  rw [computeTotals_foldl]
  simp [EMPTY_TOTALS]

/-- Field-wise sums are invariant under permutation of the meal list. -/
theorem macroSum_perm {l₁ l₂ : List MealLog} (h : List.Perm l₁ l₂) : macroSum l₁ = macroSum l₂ := by
  unfold macroSum
  rw [(h.map MealLog.protein).sum_eq, (h.map MealLog.carbs).sum_eq,
    (h.map MealLog.fat).sum_eq, (h.map MealLog.calories).sum_eq]

/-- One `logMeal` call rewrites the stored meal list of its own date to the
sorted extension of the previous list. -/
theorem currentMeals_logMeal (meal : MealLog) (s : Store) (d : String)
    (h : toDateString meal.timestamp = d) :
    currentMeals ((logMeal meal s).2) d = sortMealsByTime (currentMeals s d ++ [meal]) := by
  subst h
  simp [currentMeals, logMeal, updateMealDates, writeDaily, readDaily]

/-- After a nonempty run of `logMeal` calls that all fall on date `d`, the
stored `DailyMacros` for `d` holds a permutation of the previously stored meals
plus every logged meal, with totals recomputed from that list. -/
theorem logAll_daily (meals : List MealLog) (d : String) :
    ∀ s : Store, (∀ m ∈ meals, toDateString m.timestamp = d) → meals ≠ [] →
      ∃ dm : DailyMacros, (logAll meals s).daily d = some dm ∧ dm.date = d ∧
        List.Perm dm.meals (currentMeals s d ++ meals) ∧ dm.totals = computeTotals dm.meals := by
  induction meals with
  | nil => intro s _ h; exact absurd rfl h
  | cons m rest ih =>
    intro s hdate _
    have hm : toDateString m.timestamp = d := hdate m (by simp)
    by_cases hr : rest = []
    · subst hr
      refine ⟨{ date := toDateString m.timestamp,
                totals := computeTotals (sortMealsByTime (currentMeals s (toDateString m.timestamp) ++ [m])),
                meals := sortMealsByTime (currentMeals s (toDateString m.timestamp) ++ [m]) },
              ?_, hm, ?_, rfl⟩
      · show ((logMeal m s).2).daily d = _
        subst hm
        simp [logMeal, updateMealDates, writeDaily]
      · subst hm
        exact List.perm_insertionSort tsLe _
    · obtain ⟨dm, h1, h2, h3, h4⟩ :=
        ih ((logMeal m s).2) (fun x hx => hdate x (by simp [hx])) hr
      refine ⟨dm, h1, h2, ?_, h4⟩
      rw [currentMeals_logMeal m s d hm] at h3
      refine h3.trans ?_
      have hperm : List.Perm (sortMealsByTime (currentMeals s d ++ [m]))
          (currentMeals s d ++ [m]) := List.perm_insertionSort tsLe _
      refine (hperm.append_right rest).trans ?_
      rw [List.append_assoc]
      exact List.Perm.refl _

/-- C1: for every sequence of logMeal calls whose meals fall on the same
calendar date, the stored DailyMacros.totals for that date equals the
field-wise sum (protein, carbs, fat, calories) of all MealLogs stored for that
date, and the resulting totals are independent of the order in which the meals
were logged. -/
theorem c1_totals_invariant (meals : List MealLog) (d : String)
    (hdate : ∀ m ∈ meals, toDateString m.timestamp = d) :
    (∀ dm : DailyMacros, (logAll meals emptyStore).daily d = some dm →
        dm.totals = macroSum dm.meals ∧ dm.totals = macroSum meals)
    ∧ ∀ meals₂ : List MealLog, List.Perm meals₂ meals →
        ((logAll meals₂ emptyStore).daily d).map DailyMacros.totals
          = ((logAll meals emptyStore).daily d).map DailyMacros.totals := by
  constructor
  · intro dm hdm
    by_cases hne : meals = []
    · subst hne
      exact absurd hdm (by simp [logAll, emptyStore])
    · obtain ⟨dm2, h1, _, h3, h4⟩ := logAll_daily meals d emptyStore hdate hne
      rw [hdm] at h1
      obtain rfl : dm = dm2 := by injection h1
      have hperm : List.Perm dm.meals meals := by
        refine h3.trans ?_
        show List.Perm (currentMeals emptyStore d ++ meals) meals
        simp [currentMeals, emptyStore, readDaily]
      constructor
      · rw [h4, computeTotals_eq_macroSum]
      · rw [h4, computeTotals_eq_macroSum, macroSum_perm hperm]
  · intro meals₂ hperm
    have hdate₂ : ∀ m ∈ meals₂, toDateString m.timestamp = d :=
      fun m hm => hdate m (hperm.mem_iff.mp hm)
    by_cases hne : meals = []
    · subst hne
      rw [hperm.eq_nil]
    · have hne₂ : meals₂ ≠ [] := by
        intro h; subst h; exact hne hperm.symm.eq_nil
      obtain ⟨dm1, e1, _, p1, t1⟩ := logAll_daily meals d emptyStore hdate hne
      obtain ⟨dm2, e2, _, p2, t2⟩ := logAll_daily meals₂ d emptyStore hdate₂ hne₂
      rw [e1, e2]
      have hm1 : List.Perm dm1.meals meals := by
        refine p1.trans ?_
        show List.Perm (currentMeals emptyStore d ++ meals) meals
        simp [currentMeals, emptyStore, readDaily]
      have hm2 : List.Perm dm2.meals meals₂ := by
        refine p2.trans ?_
        show List.Perm (currentMeals emptyStore d ++ meals₂) meals₂
        simp [currentMeals, emptyStore, readDaily]
      have : dm2.totals = dm1.totals := by
        rw [t1, t2, computeTotals_eq_macroSum, computeTotals_eq_macroSum]
        exact macroSum_perm (hm2.trans (hperm.trans hm1.symm))
      simp [this]

/-- The `3 eggs` meal of the spec scenario. -/
def c1mealEggs : MealLog :=
  { id := "eggs", timestamp := 0, food := "3 eggs", protein := 18, carbs := 1, fat := 15,
    calories := 210 }

/-- The `toast` meal of the spec scenario. -/
def c1mealToast : MealLog :=
  { id := "toast", timestamp := 1000, food := "toast", protein := 4, carbs := 24, fat := 2,
    calories := 140 }

/-- Witness for C1: logging the two meals of the spec scenario on 1970-01-01
yields stored totals 22/25/17/350. -/
theorem c1_totals_invariant_witness :
    ((logAll [c1mealEggs, c1mealToast] emptyStore).daily "1970-01-01").map DailyMacros.totals
      = some { protein := 22, carbs := 25, fat := 17, calories := 350 } := by
  have h := (c1_totals_invariant [c1mealEggs, c1mealToast] "1970-01-01" (by decide)).1
  have hq : (logAll [c1mealEggs, c1mealToast] emptyStore).daily "1970-01-01"
      = some { date := "1970-01-01",
               totals := { protein := 22, carbs := 25, fat := 17, calories := 350 },
               meals := [c1mealEggs, c1mealToast] } := by decide
  have h2 := h _ hq
  have hm : macroSum [c1mealEggs, c1mealToast]
      = { protein := 22, carbs := 25, fat := 17, calories := 350 } := by decide
  rw [hq]
  exact congrArg some (h2.2.trans hm)

/-- C3: getProgress performs only reads: for every store contents and every
days argument, the store after running getProgress is the store it started
from, key for key. -/
theorem c3_getProgress_readonly (days : Nat) (now : Int) (s : Store) :
    (getProgress days now s).2 = s := rfl

/-- C5: saving a plan always makes it the head of the stored history, every
other retained entry has a different id (an existing same-id entry is replaced,
not duplicated), the history never exceeds `MAX_MEAL_PLAN_HISTORY` entries, and
the plan becomes the active plan. -/
theorem c5_plan_history (s : Store) (p : MealPlan) :
    ((saveMealPlan p s).planHistory.getD []).head? = some p
    ∧ (∀ q ∈ ((saveMealPlan p s).planHistory.getD []).tail, q.id ≠ p.id)
    ∧ ((saveMealPlan p s).planHistory.getD []).length ≤ MAX_MEAL_PLAN_HISTORY
    ∧ (saveMealPlan p s).activePlan = some p := by
  have hlist : (saveMealPlan p s).planHistory.getD []
      = (p :: (s.planHistory.getD []).filter (fun item => item.id != p.id)).take
          MAX_MEAL_PLAN_HISTORY := rfl
  refine ⟨?_, ?_, ?_, rfl⟩
  · rw [hlist]
    show ((p :: _).take 5).head? = some p
    rfl
  · intro q hq
    rw [hlist] at hq
    have hq2 : q ∈ ((s.planHistory.getD []).filter (fun item => item.id != p.id)).take 4 := by
      simpa [MAX_STORED_MEAL_HISTORY, MAX_MEAL_PLAN_HISTORY, List.take_succ_cons] using hq
    have hq3 := List.mem_of_mem_take hq2
    have := (List.mem_filter.mp hq3).2
    simpa using this
  · rw [hlist]
    exact List.length_take_le _ _

/-- Witness for C5: saving a plan whose id already heads a full history keeps
the history at its bound with the new copy in front. -/
theorem c5_plan_history_witness :
    ((saveMealPlan { id := "p1", createdAt := 9, timeframe := Timeframe.daily, days := [] }
          { emptyStore with
            planHistory := some
              [{ id := "p1", createdAt := 1, timeframe := Timeframe.daily, days := [] },
               { id := "p2", createdAt := 2, timeframe := Timeframe.daily, days := [] }] }).planHistory.getD
        []).head?
      = some { id := "p1", createdAt := 9, timeframe := Timeframe.daily, days := [] }
    ∧ ((saveMealPlan { id := "p1", createdAt := 9, timeframe := Timeframe.daily, days := [] }
          { emptyStore with
            planHistory := some
              [{ id := "p1", createdAt := 1, timeframe := Timeframe.daily, days := [] },
               { id := "p2", createdAt := 2, timeframe := Timeframe.daily, days := [] }] }).planHistory.getD
        []).length ≤ MAX_MEAL_PLAN_HISTORY := by
  refine ⟨(c5_plan_history _ _).1, (c5_plan_history _ _).2.2.1⟩

/-! Rate limiter lemmas. -/

/-- Inside an open window and under the cap, a call is admitted and counted. -/
theorem bump_under_cap (now : Int) (s : Store) (k : Nat) (r : Int)
    (hs : s.rateLimit = some { count := k, reset := r }) (hle : now ≤ r)
    (hk : k < RATE_LIMIT_MAX_REQUESTS) :
    bumpRateLimit now s = (true, { s with rateLimit := some { count := k + 1, reset := r } }) := by
  simp only [bumpRateLimit, hs, Option.getD_some]
  rw [if_neg (not_lt.mpr hle), if_neg (not_le.mpr hk)]

/-- Inside an open window at the cap, a call is refused and the record is
persisted with its count unchanged. -/
theorem bump_at_cap (now : Int) (s : Store) (k : Nat) (r : Int)
    (hs : s.rateLimit = some { count := k, reset := r }) (hle : now ≤ r)
    (hk : RATE_LIMIT_MAX_REQUESTS ≤ k) :
    bumpRateLimit now s = (false, { s with rateLimit := some { count := k, reset := r } }) := by
  simp only [bumpRateLimit, hs, Option.getD_some]
  rw [if_neg (not_lt.mpr hle), if_pos hk]

/-- A run of map over a range where the counter already reached the cap is all
false. -/
theorem range_map_false (n j : Nat) (hj : RATE_LIMIT_MAX_REQUESTS ≤ j) :
    (List.range n).map (fun i => decide (j + i < RATE_LIMIT_MAX_REQUESTS))
      = List.replicate n false := by
  induction n with
  | zero => rfl
  | succ n ih =>
    rw [List.range_succ, List.map_append, ih, List.replicate_succ']
    have : decide (j + n < RATE_LIMIT_MAX_REQUESTS) = false := by
      simp only [decide_eq_false_iff_not, not_lt]
      exact le_trans hj (Nat.le_add_right j n)
    simp [this]

/-- Running a batch of calls whose times all stay inside the stored window:
the i-th call is admitted exactly while the counter is still under the cap,
and the final record holds the capped counter with the window untouched. -/
theorem admitSeq_active (ts : List Int) :
    ∀ (k : Nat) (r : Int) (s : Store), s.rateLimit = some { count := k, reset := r } →
      (∀ t ∈ ts, t ≤ r) → k ≤ RATE_LIMIT_MAX_REQUESTS →
      (admitSeq ts s).1
          = (List.range ts.length).map (fun i => decide (k + i < RATE_LIMIT_MAX_REQUESTS))
        ∧ ((admitSeq ts s).2).rateLimit
          = some { count := min (k + ts.length) RATE_LIMIT_MAX_REQUESTS, reset := r } := by
  induction ts with
  | nil =>
    intro k r s hs _ hk
    refine ⟨rfl, ?_⟩
    simpa [admitSeq, Nat.min_eq_left hk] using hs
  | cons t ts ih =>
    intro k r s hs hts hk
    by_cases hkc : k < RATE_LIMIT_MAX_REQUESTS
    · have hb := bump_under_cap t s k r hs (hts t (by simp)) hkc
      have hnext := ih (k + 1) r { s with rateLimit := some { count := k + 1, reset := r } }
        rfl (fun x hx => hts x (by simp [hx])) hkc
      have hseq : admitSeq (t :: ts) s
          = ((bumpRateLimit t s).1 :: (admitSeq ts (bumpRateLimit t s).2).1,
             (admitSeq ts (bumpRateLimit t s).2).2) := rfl
      rw [hseq, hb]
      constructor
      · show true :: (admitSeq ts _).1 = _
        rw [hnext.1, List.length_cons, List.range_succ_eq_map, List.map_cons, List.map_map]
        have h0 : decide (k + 0 < RATE_LIMIT_MAX_REQUESTS) = true := by simpa using hkc
        rw [h0]
        congr 1
        apply List.map_congr_left
        intro i _
        show decide (k + 1 + i < RATE_LIMIT_MAX_REQUESTS)
            = decide (k + Nat.succ i < RATE_LIMIT_MAX_REQUESTS)
        rw [show k + 1 + i = k + Nat.succ i from by omega]
      · show (admitSeq ts _).2.rateLimit = _
        rw [hnext.2, show k + 1 + ts.length = k + (ts.length + 1) from by omega,
          List.length_cons]
    · have hk20 : k = RATE_LIMIT_MAX_REQUESTS := le_antisymm hk (not_lt.mp hkc)
      subst hk20
      have hb := bump_at_cap t s _ r hs (hts t (by simp)) (le_refl _)
      have hnext := ih RATE_LIMIT_MAX_REQUESTS r
        { s with rateLimit := some { count := RATE_LIMIT_MAX_REQUESTS, reset := r } }
        rfl (fun x hx => hts x (by simp [hx])) (le_refl _)
      have hseq : admitSeq (t :: ts) s
          = ((bumpRateLimit t s).1 :: (admitSeq ts (bumpRateLimit t s).2).1,
             (admitSeq ts (bumpRateLimit t s).2).2) := rfl
      rw [hseq, hb]
      constructor
      · show false :: (admitSeq ts _).1 = _
        rw [hnext.1, range_map_false ts.length _ (le_refl _),
          range_map_false (t :: ts).length _ (le_refl _), List.length_cons,
          List.replicate_succ]
      · show (admitSeq ts _).2.rateLimit = _
        rw [hnext.2, List.length_cons,
          Nat.min_eq_right (Nat.le_add_right _ _),
          Nat.min_eq_right (Nat.le_add_right _ _)]

/-- C2: from a fresh record, twenty-one admits whose times stay within the
window opened by the first call answer true twenty times and then false; and
any call made strictly after the stored reset time starts a new window of
`now + RATE_LIMIT_WINDOW_MS`, leaves the counter at one, and is admitted. -/
theorem c2_rate_limiter :
    (∀ (t0 : Int) (rest : List Int), rest.length = 20 →
        (∀ t ∈ rest, t ≤ t0 + RATE_LIMIT_WINDOW_MS) →
        (admitSeq (t0 :: rest) emptyStore).1 = List.replicate 20 true ++ [false])
    ∧ ∀ (s : Store) (rec : RateLimitRecord) (now : Int), s.rateLimit = some rec →
        rec.reset < now →
        bumpRateLimit now s
          = (true,
             { s with rateLimit := some { count := 1, reset := now + RATE_LIMIT_WINDOW_MS } }) := by
  constructor
  · intro t0 rest hlen hts
    have hfirst : bumpRateLimit t0 emptyStore
        = (true,
           { emptyStore with
             rateLimit := some { count := 1, reset := t0 + RATE_LIMIT_WINDOW_MS } }) := by
      have he : emptyStore.rateLimit = none := rfl
      simp only [bumpRateLimit, he, Option.getD_none, RATE_LIMIT_WINDOW_MS,
        RATE_LIMIT_MAX_REQUESTS]
      rw [if_neg (by omega : ¬ (t0 + 10 * 60 * 1000 < t0))]
      rw [if_neg (by omega : ¬ ((20 : Nat) ≤ 0))]
    have hf1 : (bumpRateLimit t0 emptyStore).1 = true := by rw [hfirst]
    have hf2 : (bumpRateLimit t0 emptyStore).2
        = { emptyStore with
            rateLimit := some { count := 1, reset := t0 + RATE_LIMIT_WINDOW_MS } } := by
      rw [hfirst]
    have hseq : (admitSeq (t0 :: rest) emptyStore).1
        = (bumpRateLimit t0 emptyStore).1 ::
            (admitSeq rest (bumpRateLimit t0 emptyStore).2).1 := rfl
    have hrest := admitSeq_active rest 1 (t0 + RATE_LIMIT_WINDOW_MS)
      { emptyStore with rateLimit := some { count := 1, reset := t0 + RATE_LIMIT_WINDOW_MS } }
      rfl hts (by simp only [RATE_LIMIT_MAX_REQUESTS]; omega)
    rw [hseq, hf1, hf2, hrest.1, hlen]
    decide
  · intro s rec now hs hlt
    simp only [bumpRateLimit, hs, Option.getD_some, RATE_LIMIT_MAX_REQUESTS]
    rw [if_pos hlt]
    rw [if_neg (by omega : ¬ ((20 : Nat) ≤ 0))]

/-- Witness for C2: twenty-one immediate calls from a fresh store admit the
first twenty and refuse the last; and a call past the stored reset time is
admitted on a fresh window. -/
theorem c2_rate_limiter_witness :
    (admitSeq (0 :: List.replicate 20 (0 : Int)) emptyStore).1
      = List.replicate 20 true ++ [false]
    ∧ bumpRateLimit 700000 { emptyStore with rateLimit := some { count := 7, reset := 600000 } }
      = (true,
         { emptyStore with
           rateLimit := some { count := 1, reset := 700000 + RATE_LIMIT_WINDOW_MS } }) := by
  constructor
  · refine c2_rate_limiter.1 0 (List.replicate 20 0) (by decide) ?_
    intro t ht
    rw [List.eq_of_mem_replicate ht]
    decide
  · exact c2_rate_limiter.2 _ { count := 7, reset := 600000 } 700000 rfl (by decide)

/-! Dates-index lemmas. -/

/-- Two strings with the same character data are equal. -/
theorem string_eq_of_data_eq {a b : String} (h : a.data = b.data) : a = b := by
  cases a
  cases b
  congr 1

instance : IsTrans String dateGe := ⟨fun _ _ _ hab hbc => le_trans hbc hab⟩

instance : IsTotal String dateGe := ⟨fun a b => (le_total b.data a.data).imp id id⟩

instance : IsAntisymm String dateGe :=
  ⟨fun _ _ hab hba => string_eq_of_data_eq (le_antisymm hba hab)⟩

/-- Truncating after consing commutes with truncating the tail first. -/
theorem take_cons_take {α : Type} (n : Nat) (a : α) (t : List α) :
    (a :: t.take n).take n = (a :: t).take n := by
  cases n with
  | zero => rfl
  | succ m =>
    rw [List.take_succ_cons, List.take_succ_cons, List.take_take,
      Nat.min_eq_left (Nat.le_succ m)]

/-- Inserting into a truncated list and re-truncating gives the truncation of
inserting into the full list. -/
theorem take_orderedInsert_take (d : String) (s : List String) : ∀ n : Nat,
    (List.orderedInsert dateGe d (s.take n)).take n
      = (List.orderedInsert dateGe d s).take n := by
  induction s with
  | nil => intro n; cases n <;> rfl
  | cons a t ih =>
    intro n
    cases n with
    | zero => rfl
    | succ m =>
      rw [List.take_succ_cons]
      by_cases h : dateGe d a
      · simp only [List.orderedInsert, if_pos h]
        rw [List.take_succ_cons, List.take_succ_cons, take_cons_take]
      · simp only [List.orderedInsert, if_neg h]
        rw [List.take_succ_cons, List.take_succ_cons, ih m]

/-- Sorting after appending one element is an ordered insertion into the sorted
list. -/
theorem sortDatesDesc_append (l : List String) (d : String) :
    sortDatesDesc (l ++ [d]) = List.orderedInsert dateGe d (sortDatesDesc l) := by
  have hp : List.Perm (sortDatesDesc (l ++ [d])) (List.orderedInsert dateGe d (sortDatesDesc l)) := by
    refine (List.perm_insertionSort dateGe (l ++ [d])).trans ?_
    refine (List.perm_append_singleton d l).trans ?_
    refine (((List.perm_insertionSort dateGe l).symm).cons d).trans ?_
    exact (List.perm_orderedInsert dateGe d _).symm
  have hs1 : List.Sorted dateGe (sortDatesDesc (l ++ [d])) :=
    List.sorted_insertionSort dateGe (l ++ [d])
  have hs2 : List.Sorted dateGe (List.orderedInsert dateGe d (sortDatesDesc l)) :=
    (List.sorted_insertionSort dateGe l).orderedInsert d _
  exact List.eq_of_perm_of_sorted hp hs1 hs2

/-- Sorting a sorted list is the identity. -/
theorem sortDatesDesc_sorted_eq {l : List String} (h : List.Sorted dateGe l) :
    sortDatesDesc l = l := h.insertionSort_eq

/-- The single-step commutation at the heart of the bounded index: updating the
truncated sorted index with a genuinely new date equals truncating the sorted
extension of the full date set. -/
theorem updateMealDatesList_step (l : List String) (d : String) (hd : d ∉ l) :
    updateMealDatesList ((sortDatesDesc l).take MAX_STORED_MEAL_HISTORY) d
      = (sortDatesDesc (l ++ [d])).take MAX_STORED_MEAL_HISTORY := by
  have hdm : d ∉ (sortDatesDesc l).take MAX_STORED_MEAL_HISTORY := by
    intro hmem
    exact hd ((List.perm_insertionSort dateGe l).mem_iff.mp (List.mem_of_mem_take hmem))
  have hsorted : List.Sorted dateGe ((sortDatesDesc l).take MAX_STORED_MEAL_HISTORY) :=
    (List.sorted_insertionSort dateGe l).sublist (List.take_sublist _ _)
  simp only [updateMealDatesList]
  rw [if_neg hdm]
  rw [sortDatesDesc_append, sortDatesDesc_append, sortDatesDesc_sorted_eq hsorted]
  exact take_orderedInsert_take d (sortDatesDesc l) MAX_STORED_MEAL_HISTORY

/-- Folding `updateMealDatesList` over distinct dates from an empty index
yields exactly the truncated descending sort of all the dates. -/
theorem foldl_updateMealDatesList (ds : List String) (h : ds.Nodup) :
    ds.foldl updateMealDatesList []
      = (sortDatesDesc ds).take MAX_STORED_MEAL_HISTORY := by
  induction ds using List.reverseRecOn with
  | nil => rfl
  | append_singleton l d ih =>
    rw [List.nodup_append] at h
    obtain ⟨hl, _, hdisj⟩ := h
    have hd : d ∉ l := fun hm => hdisj hm (by simp)
    rw [List.foldl_append, ih hl, List.foldl_cons, List.foldl_nil]
    exact updateMealDatesList_step l d hd

/-- The dates index after a nonempty run of `logMeal` calls is the fold of the
per-call index update over the meals' date keys. -/
theorem logAll_mealDates (meals : List MealLog) :
    ∀ s : Store, meals ≠ [] →
      (logAll meals s).mealDates
        = some ((meals.map fun m => toDateString m.timestamp).foldl updateMealDatesList
            (s.mealDates.getD [])) := by
  induction meals with
  | nil => intro s h; exact absurd rfl h
  | cons m rest ih =>
    intro s _
    by_cases hr : rest = []
    · subst hr
      rfl
    · have step : ((logMeal m s).2).mealDates
          = some (updateMealDatesList (s.mealDates.getD []) (toDateString m.timestamp)) := rfl
      have : (logAll (m :: rest) s) = logAll rest ((logMeal m s).2) := rfl
      rw [this, ih ((logMeal m s).2) hr, step]
      rfl

/-- C4: after logging meals on more than thirty distinct dates, the stored
dates index is exactly the thirty most-recent (largest) date strings in
descending order; and updating the index with a date already present performs
no insertion at all (no duplicate), only the re-sort and truncation. -/
theorem c4_bounded_dates_index (meals : List MealLog)
    (hnd : (meals.map fun m => toDateString m.timestamp).Nodup)
    (hlen : MAX_STORED_MEAL_HISTORY < meals.length) :
    (logAll meals emptyStore).mealDates
      = some ((sortDatesDesc (meals.map fun m => toDateString m.timestamp)).take
          MAX_STORED_MEAL_HISTORY)
    ∧ ((sortDatesDesc (meals.map fun m => toDateString m.timestamp)).take
          MAX_STORED_MEAL_HISTORY).length = MAX_STORED_MEAL_HISTORY
    ∧ ∀ (dates : List String) (date : String), date ∈ dates →
        updateMealDatesList dates date
          = (sortDatesDesc dates).take MAX_STORED_MEAL_HISTORY := by
  refine ⟨?_, ?_, ?_⟩
  · have hne : meals ≠ [] := by
      intro h
      rw [h] at hlen
      simp [MAX_STORED_MEAL_HISTORY] at hlen
    rw [logAll_mealDates meals emptyStore hne]
    have : emptyStore.mealDates.getD [] = [] := rfl
    rw [this, foldl_updateMealDatesList _ hnd]
  · rw [List.length_take]
    have : (sortDatesDesc (meals.map fun m => toDateString m.timestamp)).length
        = meals.length := by
      unfold sortDatesDesc
      rw [List.length_insertionSort, List.length_map]
    rw [this]
    exact Nat.min_eq_left (le_of_lt hlen)
  · intro dates date hmem
    unfold updateMealDatesList
    rw [if_pos hmem]

/-- Thirty-one meals on thirty-one consecutive distinct UTC dates. -/
def c4meals : List MealLog :=
  (List.range 31).map fun k =>
    { id := toString k, timestamp := (k : Int) * MS_PER_DAY, food := "meal",
      protein := 1, carbs := 1, fat := 1, calories := 1 }

set_option maxRecDepth 400000 in
/-- Witness for C4: logging thirty-one meals on thirty-one distinct dates
leaves the index at the thirty most-recent dates in descending order. -/
theorem c4_bounded_dates_index_witness :
    (logAll c4meals emptyStore).mealDates
      = some ((sortDatesDesc (c4meals.map fun m => toDateString m.timestamp)).take
          MAX_STORED_MEAL_HISTORY) :=
  (c4_bounded_dates_index c4meals (by decide) (by decide)).1

/-- C6: a generation failure is classified recoverable exactly when its message
contains "No such model" or "5007" or its error name is
"InferenceUpstreamError"; a recoverable failure with a fallback available
causes exactly one retry and no terminal error message, while a
non-recoverable failure, or any failure with no fallback available, causes
zero retries and emits the fixed user-visible snag message. -/
theorem c6_recoverable_fallback :
    (∀ e : JsError, isRecoverableModelError e = true ↔
        (strIncludes e.message "No such model" = true ∨ strIncludes e.message "5007" = true ∨
          e.name = "InferenceUpstreamError"))
    ∧ (∀ (e : JsError) (fb : AttemptOutcome), isRecoverableModelError e = true →
        runGeneration (AttemptOutcome.throws e) (some fb) = (1, none))
    ∧ (∀ (e : JsError) (fb : Option AttemptOutcome), isRecoverableModelError e = false →
        runGeneration (AttemptOutcome.throws e) fb = (0, some snagMessage))
    ∧ ∀ e : JsError, runGeneration (AttemptOutcome.throws e) none = (0, some snagMessage) := by
  refine ⟨?_, ?_, ?_, ?_⟩
  · intro e
    simp [isRecoverableModelError, Bool.or_eq_true, beq_iff_eq, or_assoc]
  · intro e fb h
    simp [runGeneration, h]
  · intro e fb h
    simp [runGeneration, h]
  · intro e
    simp [runGeneration]

/-- Witness for C6: an upstream-inference error retries once against the
fallback; an unrelated error retries zero times and emits the snag message. -/
theorem c6_recoverable_fallback_witness :
    runGeneration
        (AttemptOutcome.throws { name := "InferenceUpstreamError", message := "upstream down" })
        (some AttemptOutcome.ok)
      = (1, none)
    ∧ runGeneration (AttemptOutcome.throws { name := "TypeError", message := "boom" })
        (some AttemptOutcome.ok)
      = (0, some snagMessage) :=
  ⟨c6_recoverable_fallback.2.1 _ _ (by decide),
   c6_recoverable_fallback.2.2.1 _ _ (by decide)⟩

/-- Profile stored before the C7 counterexample update. -/
def c7existingProfile : UserProfile :=
  { macroTargets := some { protein := 180, carbs := 220, fat := 70, calories := 2600 } }

/-- Store holding the C7 profile. -/
def c7store : Store := { emptyStore with profile := some c7existingProfile }

/-- A partial macro-target update supplying only protein. -/
def c7input : ProfileUpdateInput :=
  { macroTargets := some { protein := some 200 } }

/-- An update supplying only a name (no macroTargets at all). -/
def c7inputNoTargets : ProfileUpdateInput := { name := some "Alex" }

/-- Counterexample to C7: a partial macroTargets update zero-fills the
unspecified macro sub-fields instead of keeping their stored values (stored
carbs 220 becomes 0), and an update without macroTargets erases the stored
targets entirely instead of keeping them. -/
theorem c7_counterexample :
    ((updateProfileTool c7input 999 c7store).profile.bind UserProfile.macroTargets)
      = some { protein := 200, carbs := 0, fat := 0, calories := 0 }
    ∧ ((updateProfileTool c7input 999 c7store).profile.bind UserProfile.macroTargets)
      ≠ some { protein := 200, carbs := 220, fat := 70, calories := 2600 }
    ∧ ((updateProfileTool c7inputNoTargets 999 c7store).profile.bind UserProfile.macroTargets)
      = none := by
  refine ⟨by decide, by decide, by decide⟩

/-- C7 (amended): a profile update merges supplied top-level fields onto the
existing profile field by field — every ordinary field absent from the update
keeps its stored value and every supplied field takes the supplied value — and
stamps the update time; the exception is macroTargets, which the update always
overwrites wholesale: a supplied partial macroTargets object is zero-filled in
its unspecified sub-fields, and an update with no macroTargets clears the
stored targets. -/
theorem c7_profile_merge (input : ProfileUpdateInput) (now : Int) (s : Store) :
    ((updateProfileTool input now s).profile.map UserProfile.name)
        = some (input.name.orElse fun _ => (s.profile.getD {}).name)
    ∧ ((updateProfileTool input now s).profile.map UserProfile.goalType)
        = some (input.goalType.orElse fun _ => (s.profile.getD {}).goalType)
    ∧ ((updateProfileTool input now s).profile.map UserProfile.weight)
        = some (input.weight.orElse fun _ => (s.profile.getD {}).weight)
    ∧ ((updateProfileTool input now s).profile.map UserProfile.targetWeight)
        = some (input.targetWeight.orElse fun _ => (s.profile.getD {}).targetWeight)
    ∧ ((updateProfileTool input now s).profile.map UserProfile.heightInches)
        = some (input.heightInches.orElse fun _ => (s.profile.getD {}).heightInches)
    ∧ ((updateProfileTool input now s).profile.map UserProfile.age)
        = some (input.age.orElse fun _ => (s.profile.getD {}).age)
    ∧ ((updateProfileTool input now s).profile.map UserProfile.sex)
        = some (input.sex.orElse fun _ => (s.profile.getD {}).sex)
    ∧ ((updateProfileTool input now s).profile.map UserProfile.activityLevel)
        = some (input.activityLevel.orElse fun _ => (s.profile.getD {}).activityLevel)
    ∧ ((updateProfileTool input now s).profile.map UserProfile.restrictions)
        = some (input.restrictions.orElse fun _ => (s.profile.getD {}).restrictions)
    ∧ ((updateProfileTool input now s).profile.map UserProfile.preferences)
        = some (input.preferences.orElse fun _ => (s.profile.getD {}).preferences)
    ∧ ((updateProfileTool input now s).profile.map UserProfile.timezone)
        = some (input.timezone.orElse fun _ => (s.profile.getD {}).timezone)
    ∧ ((updateProfileTool input now s).profile.map UserProfile.id)
        = some (s.profile.getD {}).id
    ∧ ((updateProfileTool input now s).profile.map UserProfile.macroTargets)
        = some (input.macroTargets.map fillMacroTargets)
    ∧ ((updateProfileTool input now s).profile.map UserProfile.updatedAt)
        = some (some now) := by
  refine ⟨rfl, rfl, rfl, rfl, rfl, rfl, rfl, rfl, rfl, rfl, rfl, rfl, rfl, rfl⟩

/-- The C8 meal: logged at 23:00 UTC on 1970-01-01. -/
def c8meal : MealLog :=
  { id := "late", timestamp := 82800000, food := "late snack", protein := 1, carbs := 2,
    fat := 3, calories := 4 }

/-- Counterexample to C8: in a session two hours east of UTC the meal's local
calendar date is 1970-01-02, but logMeal files it under the UTC date
1970-01-01 — there is no entry under the locale-derived key. -/
theorem c8_counterexample :
    localeDateString 7200000 c8meal.timestamp = "1970-01-02"
    ∧ toDateString c8meal.timestamp = "1970-01-01"
    ∧ ((logMeal c8meal emptyStore).2).daily "1970-01-02" = none
    ∧ (((logMeal c8meal emptyStore).2).daily "1970-01-01").isSome = true := by
  refine ⟨by decide, by decide, by decide, by decide⟩

/-- C8 (amended): the calendar-date key under which logMeal files a meal is
derived from the meal's timestamp in UTC, not in the session's locale: the
written DailyMacros sits under `toDateString` of the timestamp, which
coincides with the locale-derived date only at UTC offset zero. -/
theorem c8_utc_date_key (meal : MealLog) (s : Store) :
    (logMeal meal s).1.date = toDateString meal.timestamp
    ∧ ((logMeal meal s).2).daily (toDateString meal.timestamp) = some (logMeal meal s).1
    ∧ ∀ ts : Int, toDateString ts = localeDateString 0 ts := by
  refine ⟨rfl, ?_, ?_⟩
  · simp [logMeal, updateMealDates, writeDaily]
  · intro ts
    unfold localeDateString
    rw [Int.add_zero]

/-- Counterexample to C9: a payload whose `type` tag is not one of the three
known tags is not rejected — it is forwarded to the job scheduler and answered
with 202. -/
theorem c9_counterexample :
    handleTriggerWorkflow (some (JsValue.jsObj [("type", JsValue.jsStr "bogus")])) "wf_test"
      = TriggerResult.accepted 202 (JsValue.jsObj [("type", JsValue.jsStr "bogus")]) "wf_test"
    ∧ "bogus" ∉ knownWorkflowTags := by
  exact ⟨rfl, by decide⟩

/-- C9 (amended): the trigger endpoint rejects an unparseable body, and any
parsed body that is falsy, not object-typed, or lacks a `type` key, with a 400
client error before anything is forwarded; every truthy object payload that
has a `type` key — whatever its value, known tag or not — is forwarded to the
scheduler and answered 202 with the new job identifier. -/
theorem c9_trigger_validation :
    (∀ jobId : String,
        handleTriggerWorkflow none jobId
          = TriggerResult.clientError 400 "Failed to trigger workflow")
    ∧ (∀ (v : JsValue) (jobId : String),
        jsTruthy v = false ∨ typeofObject v = false ∨ hasTypeKey v = false →
        handleTriggerWorkflow (some v) jobId
          = TriggerResult.clientError 400 "Invalid workflow payload")
    ∧ ∀ (fields : List (String × JsValue)) (jobId : String),
        (fields.lookup "type").isSome = true →
        handleTriggerWorkflow (some (JsValue.jsObj fields)) jobId
          = TriggerResult.accepted 202 (JsValue.jsObj fields) jobId := by
  refine ⟨fun _ => rfl, ?_, ?_⟩
  · intro v jobId h
    simp only [handleTriggerWorkflow]
    rcases h with h | h | h <;> simp [h]
  · intro fields jobId h
    simp [handleTriggerWorkflow, jsTruthy, typeofObject, hasTypeKey, h]

/-- Witness for C9: a well-formed weekly_meal_prep payload is forwarded with
202, and a null body is rejected with 400. -/
theorem c9_trigger_validation_witness :
    handleTriggerWorkflow (some (JsValue.jsObj [("type", JsValue.jsStr "weekly_meal_prep")]))
        "wf_1"
      = TriggerResult.accepted 202
          (JsValue.jsObj [("type", JsValue.jsStr "weekly_meal_prep")]) "wf_1"
    ∧ handleTriggerWorkflow (some JsValue.jsNull) "wf_1"
      = TriggerResult.clientError 400 "Invalid workflow payload" :=
  ⟨c9_trigger_validation.2.2 [("type", JsValue.jsStr "weekly_meal_prep")] "wf_1" rfl,
   c9_trigger_validation.2.1 JsValue.jsNull "wf_1" (Or.inl rfl)⟩

/-- C10: saveShoppingList always stores the list in the shopping-lists map
under its id; when the supplied planId equals the id of the currently active
plan, the active plan is re-saved with its shoppingListId back-linked to the
new list; when the planId does not match the active plan, or no active plan
exists, or no planId was supplied, the active plan and the plan history are
left unchanged. -/
theorem c10_shopping_list_backlink (input : ShoppingListInput) (genId : String) (now : Int)
    (s : Store) :
    ((saveShoppingListTool input genId now s).shoppingLists (input.id.getD genId)
        = some { id := input.id.getD genId, createdAt := now, timeframe := input.timeframe,
                 items := input.items })
    ∧ (∀ (planId : String) (activePlan : MealPlan),
        input.planId = some planId → s.activePlan = some activePlan →
        activePlan.id = planId →
        (saveShoppingListTool input genId now s).activePlan
          = some { activePlan with shoppingListId := some (input.id.getD genId) })
    ∧ (∀ (planId : String) (activePlan : MealPlan),
        input.planId = some planId → s.activePlan = some activePlan →
        activePlan.id ≠ planId →
        (saveShoppingListTool input genId now s).activePlan = s.activePlan
        ∧ (saveShoppingListTool input genId now s).planHistory = s.planHistory)
    ∧ (∀ planId : String, input.planId = some planId → s.activePlan = none →
        (saveShoppingListTool input genId now s).activePlan = none
        ∧ (saveShoppingListTool input genId now s).planHistory = s.planHistory)
    ∧ (input.planId = none →
        (saveShoppingListTool input genId now s).activePlan = s.activePlan
        ∧ (saveShoppingListTool input genId now s).planHistory = s.planHistory) := by
  have hagent : ∀ list : ShoppingList,
      (saveShoppingListAgent list s).activePlan = s.activePlan
      ∧ (saveShoppingListAgent list s).planHistory = s.planHistory
      ∧ (saveShoppingListAgent list s).shoppingLists list.id = some list := by
    intro list
    refine ⟨rfl, rfl, ?_⟩
    simp [saveShoppingListAgent]
  refine ⟨?_, ?_, ?_, ?_, ?_⟩
  · simp only [saveShoppingListTool]
    cases hpid : input.planId with
    | none => simp [saveShoppingListAgent]
    | some planId =>
      simp only []
      cases hap : (saveShoppingListAgent _ s).activePlan with
      | none => simp [saveShoppingListAgent]
      | some latestPlan =>
        by_cases hid : latestPlan.id = planId
        · simp [hid, saveMealPlan, saveShoppingListAgent]
        · simp [hid, saveShoppingListAgent]
  · intro planId activePlan hpid hap hid
    have hap2 : (saveShoppingListAgent
        { id := input.id.getD genId, createdAt := now, timeframe := input.timeframe,
          items := input.items } s).activePlan = some activePlan := hap
    simp only [saveShoppingListTool, hpid, hap2, hid, if_pos]
    rfl
  · intro planId activePlan hpid hap hid
    have hap2 : (saveShoppingListAgent
        { id := input.id.getD genId, createdAt := now, timeframe := input.timeframe,
          items := input.items } s).activePlan = some activePlan := hap
    simp only [saveShoppingListTool, hpid, hap2, if_neg hid]
    exact ⟨hap.symm, rfl⟩
  · intro planId hpid hap
    have hap2 : (saveShoppingListAgent
        { id := input.id.getD genId, createdAt := now, timeframe := input.timeframe,
          items := input.items } s).activePlan = none := hap
    simp only [saveShoppingListTool, hpid, hap2]
    exact ⟨trivial, rfl⟩
  · intro hpid
    simp only [saveShoppingListTool, hpid]
    exact ⟨rfl, rfl⟩

/-- The active plan used by the C10 witness. -/
def c10plan : MealPlan := { id := "p1", createdAt := 0, timeframe := Timeframe.daily, days := [] }

/-- A shopping-list input that names plan p1. -/
def c10input : ShoppingListInput := { id := some "L1", planId := some "p1" }

/-- The store with p1 active. -/
def c10store : Store := { emptyStore with activePlan := some c10plan }

/-- Witness for C10: saving list L1 against active plan p1 stores the list
under L1 and back-links the active plan to it. -/
theorem c10_shopping_list_backlink_witness :
    (saveShoppingListTool c10input "gen" 5 c10store).shoppingLists "L1"
      = some { id := "L1", createdAt := 5, timeframe := Timeframe.daily, items := [] }
    ∧ (saveShoppingListTool c10input "gen" 5 c10store).activePlan
      = some { c10plan with shoppingListId := some "L1" } :=
  ⟨(c10_shopping_list_backlink c10input "gen" 5 c10store).1,
   (c10_shopping_list_backlink c10input "gen" 5 c10store).2.1 "p1" c10plan rfl rfl rfl⟩

end GainChef
